import Mathlib

/-
Verification of the ACL risk-assessment backend (websocket_server.py).
The Python code is shallowly embedded: machine floats become real numbers,
dictionaries become total functions or lists, and fallible operations
(Python exceptions) become Except values.
-/

open scoped Classical

noncomputable section

/-- Degrees-to-radians factor, `DEG2RAD = np.pi / 180.0`. -/
def DEG2RAD : ℝ := Real.pi / 180

/-- Radians-to-degrees factor, `RAD2DEG = 180.0 / np.pi`. -/
def RAD2DEG : ℝ := 180 / Real.pi

/-- A 3-vector of reals (numpy length-3 array). -/
structure Vec3 where
  x : ℝ
  y : ℝ
  z : ℝ

def vadd (a b : Vec3) : Vec3 := ⟨a.x + b.x, a.y + b.y, a.z + b.z⟩

def vsub (a b : Vec3) : Vec3 := ⟨a.x - b.x, a.y - b.y, a.z - b.z⟩

def vsmul (c : ℝ) (a : Vec3) : Vec3 := ⟨c * a.x, c * a.y, c * a.z⟩

def vneg (a : Vec3) : Vec3 := ⟨-a.x, -a.y, -a.z⟩

def vdot (a b : Vec3) : ℝ := a.x * b.x + a.y * b.y + a.z * b.z

def vcross (a b : Vec3) : Vec3 :=
  ⟨a.y * b.z - a.z * b.y, a.z * b.x - a.x * b.z, a.x * b.y - a.y * b.x⟩

/-- `np.linalg.norm` of a 3-vector. -/
def vnorm (a : Vec3) : ℝ := Real.sqrt (a.x ^ 2 + a.y ^ 2 + a.z ^ 2)

/-- Division of a vector by its own norm, `v / np.linalg.norm(v)`. -/
def vnormalize (a : Vec3) : Vec3 := vsmul (1 / vnorm a) a

/-- Mean of a list of 3-vectors, `np.mean(..., axis=0)`. -/
def vmean (l : List Vec3) : Vec3 :=
  vsmul (1 / (l.length : ℝ)) (l.foldl vadd ⟨0, 0, 0⟩)

/-- A quaternion in (w, x, y, z) order, as used throughout the backend. -/
structure Quat where
  w : ℝ
  x : ℝ
  y : ℝ
  z : ℝ

/-- `quaternion_conjugate` from the source. -/
def quaternion_conjugate (q : Quat) : Quat := ⟨q.w, -q.x, -q.y, -q.z⟩

/-- `quaternion_multiply` (Hamilton product) from the source. -/
def quaternion_multiply (q r : Quat) : Quat :=
  ⟨q.w * r.w - q.x * r.x - q.y * r.y - q.z * r.z,
   q.w * r.x + q.x * r.w + q.y * r.z - q.z * r.y,
   q.w * r.y - q.x * r.z + q.y * r.w + q.z * r.x,
   q.w * r.z + q.x * r.y - q.y * r.x + q.z * r.w⟩

/-- Squared quaternion norm. -/
def qnormSq (q : Quat) : ℝ := q.w ^ 2 + q.x ^ 2 + q.y ^ 2 + q.z ^ 2

/-- `np.linalg.norm` of a quaternion. -/
def qnorm (q : Quat) : ℝ := Real.sqrt (qnormSq q)

def qsmul (c : ℝ) (q : Quat) : Quat := ⟨c * q.w, c * q.x, c * q.y, c * q.z⟩

def qadd (q r : Quat) : Quat := ⟨q.w + r.w, q.x + r.x, q.y + r.y, q.z + r.z⟩

/-- Division of a quaternion by its own norm, `q / np.linalg.norm(q)`. -/
def qnormalize (q : Quat) : Quat := qsmul (1 / qnorm q) q

/-- The identity quaternion `[1.0, 0.0, 0.0, 0.0]`. -/
def qid : Quat := ⟨1, 0, 0, 0⟩

/-- `np.arctan2 y x` over the reals. -/
def arctan2 (y x : ℝ) : ℝ :=
  if 0 < x then Real.arctan (y / x)
  else if x < 0 then
    (if 0 ≤ y then Real.arctan (y / x) + Real.pi else Real.arctan (y / x) - Real.pi)
  else
    (if 0 < y then Real.pi / 2 else if y < 0 then -(Real.pi / 2) else 0)

/-- `IMUSystem.quaternion_to_euler_xyz`: (roll, pitch, yaw) with the
    `asin` argument clipped to [-1, 1]. -/
def quaternion_to_euler_xyz (q : Quat) : ℝ × ℝ × ℝ :=
  let sinr_cosp := 2 * (q.w * q.x + q.y * q.z)
  let cosr_cosp := 1 - 2 * (q.x * q.x + q.y * q.y)
  let roll := arctan2 sinr_cosp cosr_cosp
  let sinp := min 1 (max (-1) (2 * (q.w * q.y - q.z * q.x)))
  let pitch := Real.arcsin sinp
  let siny_cosp := 2 * (q.w * q.z + q.x * q.y)
  let cosy_cosp := 1 - 2 * (q.y * q.y + q.z * q.z)
  let yaw := arctan2 siny_cosp cosy_cosp
  (roll, pitch, yaw)

/-- `IMUSystem._deadzone`: values of magnitude below the threshold are
    forced to exactly zero. -/
def _deadzone (x : ℝ) (th : ℝ) : ℝ := if |x| < th then 0 else x

/-- The four knee angles emitted per frame, in degrees. -/
structure KneeAngles where
  left_flexion : ℝ
  right_flexion : ℝ
  left_abduction : ℝ
  right_abduction : ℝ

/-- One entry of `JumpLandingRecorder.recording_data`. -/
structure AngleSample where
  timestamp : ℝ
  time_elapsed_ms : ℤ
  angles : KneeAngles

/-- The state of `JumpLandingRecorder`. -/
structure JumpLandingRecorder where
  recording_data : List AngleSample
  recording_start : Option ℝ
  is_recording : Bool

/-- Python runtime errors that `compute_statistics` can raise. -/
inductive PyError where
  | zeroDivision : PyError

/-- Sum of a list of reals. -/
def npsum (l : List ℝ) : ℝ := l.foldl (· + ·) 0

/-- `np.min` of a nonempty list (0 on the empty list, which never occurs). -/
def npmin (l : List ℝ) : ℝ :=
  match l with
  | [] => 0
  | a :: rest => rest.foldl min a

/-- `np.max` of a nonempty list (0 on the empty list, which never occurs). -/
def npmax (l : List ℝ) : ℝ :=
  match l with
  | [] => 0
  | a :: rest => rest.foldl max a

/-- `np.mean`. -/
def npmean (l : List ℝ) : ℝ := npsum l / (l.length : ℝ)

/-- `np.std` (population standard deviation, ddof = 0). -/
def npstd (l : List ℝ) : ℝ :=
  Real.sqrt (npmean (l.map (fun v => (v - npmean l) ^ 2)))

/-- `np.median`: middle element of the sorted data, or the average of the
    two middle elements when the length is even. -/
def npmedian (l : List ℝ) : ℝ :=
  let s := l.mergeSort (fun a b => decide (a ≤ b))
  if l.length % 2 = 1 then s.getD (l.length / 2) 0
  else (s.getD (l.length / 2 - 1) 0 + s.getD (l.length / 2) 0) / 2

/-- Per-channel descriptive statistics block of `compute_statistics`. -/
structure ChannelStats where
  min : ℝ
  max : ℝ
  mean : ℝ
  std : ℝ
  range : ℝ
  median : ℝ
  peak_to_peak : ℝ

/-- The `recording_info` block of `compute_statistics`. The wall-clock
    reading `datetime.now()` is modelled as an explicit real input. -/
structure RecordingInfo where
  duration_seconds : ℝ
  sample_count : ℕ
  sampling_rate_hz : ℝ
  recording_timestamp : ℝ

/-- The `symmetry_metrics` block of `compute_statistics`. -/
structure SymmetryMetrics where
  flexion_difference_mean : ℝ
  flexion_difference_max : ℝ
  abduction_difference_mean : ℝ
  abduction_difference_max : ℝ

/-- The full statistics dictionary returned by `compute_statistics`. -/
structure StatisticsSummary where
  recording_info : RecordingInfo
  left_flexion : ChannelStats
  right_flexion : ChannelStats
  left_abduction : ChannelStats
  right_abduction : ChannelStats
  symmetry_metrics : SymmetryMetrics

/-- The descriptive-statistics block computed for one angle channel. -/
def channel_stats (l : List ℝ) : ChannelStats :=
  { min := npmin l
    max := npmax l
    mean := npmean l
    std := npstd l
    range := npmax l - npmin l
    median := npmedian l
    peak_to_peak := npmax l - npmin l }

/-- `JumpLandingRecorder.compute_statistics`. Returns `ok none` on an
    empty buffer; raises `ZeroDivisionError` when the elapsed span between
    the first and last samples is zero (Python `len(data) / 0.0`);
    otherwise returns the summary. `now` models `datetime.now()`. -/
def compute_statistics (r : JumpLandingRecorder) (now : ℝ) :
    Except PyError (Option StatisticsSummary) :=
  match r.recording_data with
  | [] => Except.ok none
  | first :: rest =>
      let data := first :: rest
      let lastS := rest.getLastD first
      let lf := data.map (fun s => s.angles.left_flexion)
      let rf := data.map (fun s => s.angles.right_flexion)
      let la := data.map (fun s => s.angles.left_abduction)
      let ra := data.map (fun s => s.angles.right_abduction)
      let span : ℝ := ((lastS.time_elapsed_ms - first.time_elapsed_ms : ℤ) : ℝ) / 1000
      if span = 0 then Except.error PyError.zeroDivision
      else
        Except.ok (some
          { recording_info :=
              { duration_seconds := span
                sample_count := data.length
                sampling_rate_hz := (data.length : ℝ) / span
                recording_timestamp := now }
            left_flexion := channel_stats lf
            right_flexion := channel_stats rf
            left_abduction := channel_stats la
            right_abduction := channel_stats ra
            symmetry_metrics :=
              { flexion_difference_mean := npmean lf - npmean rf
                flexion_difference_max := npmax (List.zipWith (fun a b => |a - b|) lf rf)
                abduction_difference_mean := npmean la - npmean ra
                abduction_difference_max := npmax (List.zipWith (fun a b => |a - b|) la ra) } })

/-- Projection to the `recording_info` block of a `compute_statistics` result. -/
def stats_info (e : Except PyError (Option StatisticsSummary)) : Option RecordingInfo :=
  match e with
  | Except.ok (some st) => some st.recording_info
  | _ => none

/-- A `compute_statistics` result with the wall-clock field zeroed out. -/
def strip_timestamp (e : Except PyError (Option StatisticsSummary)) :
    Except PyError (Option StatisticsSummary) :=
  match e with
  | Except.ok (some st) =>
      Except.ok (some { st with recording_info :=
        { st.recording_info with recording_timestamp := 0 } })
  | x => x

/-- All-zero angle record. -/
def zeroAngles : KneeAngles := ⟨0, 0, 0, 0⟩

/-- A sample at elapsed 0 ms. -/
def sampleA : AngleSample := ⟨0, 0, zeroAngles⟩

/-- A sample at elapsed 1000 ms. -/
def sampleB : AngleSample := ⟨1, 1000, zeroAngles⟩

/-- An empty recorder buffer. -/
def recorder0 : JumpLandingRecorder := ⟨[], none, false⟩

/-- A one-sample recorder buffer. -/
def recorder1 : JumpLandingRecorder := ⟨[sampleA], some 0, false⟩

/-- A two-sample recorder buffer spanning exactly one second. -/
def recorder2 : JumpLandingRecorder := ⟨[sampleA, sampleB], some 0, false⟩

/-- A 3x3 matrix stored as its three columns (numpy `column_stack`). -/
structure Mat3 where
  c0 : Vec3
  c1 : Vec3
  c2 : Vec3

/-- Column extraction `M[:, i]`. -/
def mat3_col (M : Mat3) (i : ℕ) : Vec3 :=
  if i = 0 then M.c0 else if i = 1 then M.c1 else M.c2

/-- `np.argmax` over three values: index of the first maximal entry. -/
def argmax3 (v : Vec3) : ℕ :=
  if v.y ≤ v.x ∧ v.z ≤ v.x then 0 else if v.z ≤ v.y then 1 else 2

/-- `np.cov(rows.T)` for a list of 3-vector rows: mean-centred second
    moments divided by (n - 1). -/
def npcov3 (rows : List Vec3) : Mat3 :=
  let n : ℝ := (rows.length : ℝ)
  let m := vmean rows
  let c := rows.map (fun v => vsub v m)
  let e : (Vec3 → ℝ) → (Vec3 → ℝ) → ℝ := fun f g =>
    (c.map (fun v => f v * g v)).foldl (· + ·) 0 / (n - 1)
  ⟨⟨e (·.x) (·.x), e (·.y) (·.x), e (·.z) (·.x)⟩,
   ⟨e (·.x) (·.y), e (·.y) (·.y), e (·.z) (·.y)⟩,
   ⟨e (·.x) (·.z), e (·.y) (·.z), e (·.z) (·.z)⟩⟩

/-- `rotm_to_quat` from the source: trace-sign / diagonal-dominance branch
    conversion of a rotation matrix to a quaternion, renormalized.
    `M.c0` is the matrix column `R[:, 0]`, so `R[i, j] = (col j)[i]`. -/
def rotm_to_quat (R : Mat3) : Quat :=
  let tr := R.c0.x + R.c1.y + R.c2.z
  let q : Quat :=
    if 0 < tr then
      let s := Real.sqrt (tr + 1) * 2
      ⟨0.25 * s, (R.c1.z - R.c2.y) / s, (R.c2.x - R.c0.z) / s, (R.c0.y - R.c1.x) / s⟩
    else if R.c1.y < R.c0.x ∧ R.c2.z < R.c0.x then
      let s := Real.sqrt (1 + R.c0.x - R.c1.y - R.c2.z) * 2
      ⟨(R.c1.z - R.c2.y) / s, 0.25 * s, (R.c1.x + R.c0.y) / s, (R.c2.x + R.c0.z) / s⟩
    else if R.c2.z < R.c1.y then
      let s := Real.sqrt (1 + R.c1.y - R.c0.x - R.c2.z) * 2
      ⟨(R.c2.x - R.c0.z) / s, (R.c1.x + R.c0.y) / s, 0.25 * s, (R.c2.y + R.c1.z) / s⟩
    else
      let s := Real.sqrt (1 + R.c2.z - R.c0.x - R.c1.y) * 2
      ⟨(R.c0.y - R.c1.x) / s, (R.c2.x + R.c0.z) / s, (R.c2.y + R.c1.z) / s, 0.25 * s⟩
  qnormalize q

/-- `build_anatomical_frame`: z = long axis, x = flexion axis made
    orthogonal to z by Gram-Schmidt, y = z cross x, assembled columnwise. -/
def build_anatomical_frame (long_axis_s flex_axis_s : Vec3) : Mat3 :=
  let z_s := vnormalize long_axis_s
  let x0 := vnormalize flex_axis_s
  let x_s := vnormalize (vsub x0 (vsmul (vdot x0 z_s) z_s))
  let y_s := vnormalize (vcross z_s x_s)
  ⟨x_s, y_s, z_s⟩

/-- One calibration sample `{id, acc, gyr}` as buffered by `collect_samples`. -/
structure IMUSample where
  id : ℕ
  acc : Vec3
  gyr : Vec3

/-- `compute_gravity_axis`: mean of the accelerometer samples for one
    sensor id, normalized; raises (models `ValueError`) when that id has
    zero samples. -/
def compute_gravity_axis (static_samples : List IMUSample) (imu_id : ℕ) :
    Except String Vec3 :=
  let accs := (static_samples.filter (fun s => s.id == imu_id)).map (·.acc)
  if accs.isEmpty then Except.error ("No static samples for IMU " ++ toString imu_id)
  else Except.ok (vnormalize (vmean accs))

/-- `compute_flexion_axis`: dominant eigenvector of the covariance of the
    mean-centred gyro samples for one sensor id, normalized; raises when
    that id has zero samples. The eigen-decomposition `np.linalg.eig` is
    external library code, abstracted as the parameter `eig3` returning
    (eigenvalues, eigenvector columns). -/
def compute_flexion_axis (eig3 : Mat3 → Vec3 × Mat3)
    (flexion_samples : List IMUSample) (imu_id : ℕ) : Except String Vec3 :=
  let gyrs := (flexion_samples.filter (fun s => s.id == imu_id)).map (·.gyr)
  if gyrs.isEmpty then Except.error ("No flexion samples for IMU " ++ toString imu_id)
  else
    let gyrs_centered := gyrs.map (fun g => vsub g (vmean gyrs))
    let C := npcov3 gyrs_centered
    let ev := eig3 C
    Except.ok (vnormalize (mat3_col ev.2 (argmax3 ev.1)))

/-- The four fixed sensor ids: 0 = L shank, 1 = R shank, 2 = L thigh,
    3 = R thigh. -/
def MODE_1_IMUS : List ℕ := [0, 1, 2, 3]

/-- The `IMUSystem` state. The Python dictionaries `quaternions` and
    `q_sensor_to_anat` are read only through `.get(key, identity)`, so
    they are modelled as total functions; `filters` membership as a
    Boolean predicate. -/
structure IMUState where
  filters : ℕ → Bool
  quaternions : ℕ → Quat
  q_sensor_to_anat : ℕ → Quat
  calibrated : Bool
  neutral_knee_left : Option Quat
  neutral_knee_right : Option Quat
  gyr_norm_all : ℝ

/-- `IMUSystem.__init__`. -/
def initState : IMUState :=
  ⟨fun _ => false, fun _ => qid, fun _ => qid, false, none, none, 0⟩

/-- The accelerometer vector handed to the Madgwick fusion correction in
    `update_filter` (lines 129-133): unit-normalize inside the
    [0.8, 1.2] x gravity band; outside it, still unit-normalize when the
    magnitude exceeds 0.1, else fall back to the zero vector. -/
def acc_for_fusion (acc : Vec3) : Vec3 :=
  let acc_norm_g := vnorm acc / 9.81
  if 0.8 < acc_norm_g ∧ acc_norm_g < 1.2 then vsmul (1 / vnorm acc) acc
  else if 0.1 < vnorm acc then vsmul (1 / vnorm acc) acc
  else ⟨0, 0, 0⟩

/-- `IMUSystem.update_filter`. The Madgwick step `updateIMU` (external
    `ahrs` library code) is abstracted as `upd`, receiving the sensor id,
    previous quaternion, gyro in rad/s, the gated accel vector and dt. -/
def update_filter (upd : ℕ → Quat → Vec3 → Vec3 → ℝ → Option Quat)
    (S : IMUState) (imu_id : ℕ) (acc gyr : Vec3) (dt : ℝ) : IMUState :=
  if S.filters imu_id = false then S
  else
    let gyr_rad := vsmul DEG2RAD gyr
    let q_prev := S.quaternions imu_id
    match upd imu_id q_prev gyr_rad (acc_for_fusion acc) dt with
    | some q_new => { S with quaternions := Function.update S.quaternions imu_id q_new }
    | none => S

/-- `IMUSystem.get_segment_orientation_anat`. -/
def get_segment_orientation_anat (S : IMUState) (imu_id : ℕ) : Quat :=
  qnormalize (quaternion_multiply (S.quaternions imu_id) (S.q_sensor_to_anat imu_id))

/-- `IMUSystem.compute_relative_quaternion`. -/
def compute_relative_quaternion (q_proximal q_distal : Quat) : Quat :=
  quaternion_multiply (quaternion_conjugate q_proximal) q_distal

/-- Left knee relative quaternion (thigh 2 proximal, shank 0 distal). -/
def knee_rel_left (S : IMUState) : Quat :=
  compute_relative_quaternion (get_segment_orientation_anat S 2)
    (get_segment_orientation_anat S 0)

/-- Right knee relative quaternion (thigh 3 proximal, shank 1 distal). -/
def knee_rel_right (S : IMUState) : Quat :=
  compute_relative_quaternion (get_segment_orientation_anat S 3)
    (get_segment_orientation_anat S 1)

/-- `IMUSystem.capture_neutral_knees`. -/
def capture_neutral_knees (S : IMUState) : IMUState :=
  { S with
    neutral_knee_left := some (knee_rel_left S)
    neutral_knee_right := some (knee_rel_right S) }

/-- `IMUSystem.maybe_reanchor_neutral`: decode both relative quaternions,
    and when all decoded angles are within 5 degrees, the aggregate gyro
    norm is below 5 deg/s and both neutral poses are stored, blend 98%/2%
    toward the stored neutral poses and renormalize. -/
def maybe_reanchor_neutral (S : IMUState) (q_rel_left q_rel_right : Quat) :
    Quat × Quat :=
  let el := quaternion_to_euler_xyz q_rel_left
  let er := quaternion_to_euler_xyz q_rel_right
  let flex_l := el.1 * RAD2DEG
  let flex_r := er.1 * RAD2DEG
  let abd_l := el.2.1 * RAD2DEG
  let abd_r := er.2.1 * RAD2DEG
  match S.neutral_knee_left, S.neutral_knee_right with
  | some nl, some nr =>
      if |flex_l| < 5 ∧ |flex_r| < 5 ∧ |abd_l| < 5 ∧ |abd_r| < 5 ∧
          S.gyr_norm_all < 5 then
        (qnormalize (qadd (qsmul (1 - 0.02) q_rel_left) (qsmul 0.02 nl)),
         qnormalize (qadd (qsmul (1 - 0.02) q_rel_right) (qsmul 0.02 nr)))
      else (q_rel_left, q_rel_right)
  | _, _ => (q_rel_left, q_rel_right)

/-- The pair of working (baseline-removed, reanchored) relative
    quaternions decoded by `compute_knee_angles`, given the stored
    neutral poses. -/
def knee_reanchored (S : IMUState) (nl nr : Quat) : Quat × Quat :=
  maybe_reanchor_neutral S
    (quaternion_multiply (quaternion_conjugate nl) (knee_rel_left S))
    (quaternion_multiply (quaternion_conjugate nr) (knee_rel_right S))

/-- `IMUSystem.compute_knee_angles`: `none` when not calibrated or a
    neutral pose is missing; otherwise dead-zoned Euler angles in degrees
    with the right flexion sign flipped. -/
def compute_knee_angles (S : IMUState) : Option KneeAngles :=
  if S.calibrated = false then none
  else
    match S.neutral_knee_left, S.neutral_knee_right with
    | some nl, some nr =>
        let qpair := knee_reanchored S nl nr
        let el := quaternion_to_euler_xyz qpair.1
        let er := quaternion_to_euler_xyz qpair.2
        let flex_l := _deadzone (el.1 * RAD2DEG) 1
        let flex_r := _deadzone (er.1 * RAD2DEG) 1
        let abd_l := _deadzone (el.2.1 * RAD2DEG) 1
        let abd_r := _deadzone (er.2.1 * RAD2DEG) 1
        some ⟨flex_l, -flex_r, abd_l, abd_r⟩
    | _, _ => none

/-- One iteration of the `run_anatomical_calibration` loop body for one
    sensor id: gravity axis, long axis, flexion axis, anatomical frame,
    sensor-to-anatomical quaternion. -/
def calibrate_one (eig3 : Mat3 → Vec3 × Mat3)
    (static_samples flexion_samples : List IMUSample)
    (S : IMUState) (imu_id : ℕ) : Except String IMUState :=
  match compute_gravity_axis static_samples imu_id with
  | Except.error e => Except.error e
  | Except.ok g_s =>
      let long_axis := vneg g_s
      match compute_flexion_axis eig3 flexion_samples imu_id with
      | Except.error e => Except.error e
      | Except.ok f_s =>
          let R_sa := build_anatomical_frame long_axis f_s
          let q_sa := rotm_to_quat R_sa
          Except.ok { S with
            q_sensor_to_anat := Function.update S.q_sensor_to_anat imu_id q_sa }

/-- The `for imu_id in MODE_1_IMUS` loop of `run_anatomical_calibration`.
    A raised error aborts the loop, keeping the partially updated state
    (Python exception semantics). -/
def calibrate_imus (eig3 : Mat3 → Vec3 × Mat3)
    (static_samples flexion_samples : List IMUSample) :
    List ℕ → IMUState → IMUState × Option String
  | [], S => (S, none)
  | imu_id :: rest, S =>
      match calibrate_one eig3 static_samples flexion_samples S imu_id with
      | Except.error e => (S, some e)
      | Except.ok S2 => calibrate_imus eig3 static_samples flexion_samples rest S2

/-- `IMUSystem.run_anatomical_calibration`: loop over the fixed id set;
    on success set the calibrated flag and capture the neutral poses; on a
    raised error propagate it without reaching those lines. -/
def run_anatomical_calibration (eig3 : Mat3 → Vec3 × Mat3)
    (static_samples flexion_samples : List IMUSample) (S : IMUState) :
    IMUState × Option String :=
  match calibrate_imus eig3 static_samples flexion_samples MODE_1_IMUS S with
  | (S2, some e) => (S2, some e)
  | (S2, none) => (capture_neutral_knees { S2 with calibrated := true }, none)

/-- A low-magnitude accelerometer sample (norm 0.05 m/s^2). -/
def accSmall : Vec3 := ⟨1 / 20, 0, 0⟩

/-- A trivial stand-in for the abstract eigen-decomposition, used only to
    instantiate witnesses. -/
def eigTrivial : Mat3 → Vec3 × Mat3 :=
  fun _ => (⟨1, 0, 0⟩, ⟨⟨1, 0, 0⟩, ⟨0, 1, 0⟩, ⟨0, 0, 1⟩⟩)

/-- A calibrated state at rest with identity orientations, both neutral
    poses stored and a large aggregate gyro norm (reanchor gate off). -/
def stateReady : IMUState :=
  ⟨fun _ => false, fun _ => qid, fun _ => qid, true, some qid, some qid, 10⟩

/-- A calibrated state with identity filter quaternions whose left-shank
    anatomical quaternion is a 180-degree rotation about y, at rest
    (aggregate gyro norm 0, reanchor gate on). -/
def stateSkewLeft : IMUState :=
  ⟨fun _ => false, fun _ => qid,
   fun i => if i = 0 then ⟨0, 0, 1, 0⟩ else qid, true, none, none, 0⟩

/-- A calibrated identity state whose aggregate gyro norm sits exactly at
    the 5 deg/s gate boundary (reanchor gate off, strict comparison). -/
def stateStill5 : IMUState :=
  ⟨fun _ => false, fun _ => qid, fun _ => qid, true, none, none, 5⟩

/-- The elapsed span in seconds is zero exactly when the first and last
    elapsed-millisecond stamps agree. -/
theorem span_zero_iff (a b : ℤ) : ((a - b : ℤ) : ℝ) / 1000 = 0 ↔ a = b := by
  rw [div_eq_zero_iff]
  norm_num [sub_eq_zero]

/-- C6: `compute_statistics` on an empty recording buffer returns the
    explicit no-data value (`ok none`): it does not raise and does not
    fabricate zero-valued statistics. -/
theorem compute_statistics_empty (r : JumpLandingRecorder) (now : ℝ)
    (h : r.recording_data = []) :
    compute_statistics r now = Except.ok none := by
  simp [compute_statistics, h]

theorem compute_statistics_empty_witness :
    compute_statistics recorder0 0 = Except.ok none :=
  compute_statistics_empty recorder0 0 rfl

/-- C10: on a nonempty buffer, `compute_statistics` raises a
    division-by-zero error exactly when the first and last samples carry
    equal `time_elapsed_ms` values (zero elapsed span) — in particular on
    every single-sample buffer; it returns a summary only when the span is
    nonzero. -/
theorem compute_statistics_zero_span (r : JumpLandingRecorder) (now : ℝ)
    (first : AngleSample) (rest : List AngleSample)
    (hdata : r.recording_data = first :: rest) :
    compute_statistics r now = Except.error PyError.zeroDivision ↔
      (rest.getLastD first).time_elapsed_ms = first.time_elapsed_ms := by
  rcases r with ⟨data, rstart, rflag⟩
  simp only at hdata
  subst hdata
  simp only [compute_statistics]
  by_cases hz : (rest.getLastD first).time_elapsed_ms = first.time_elapsed_ms
  · rw [if_pos ((span_zero_iff _ _).mpr hz)]
    simp only [List.getLastD_eq_getLast?] at hz
    simp [hz]
  · rw [if_neg (fun h => hz ((span_zero_iff _ _).mp h))]
    simp only [List.getLastD_eq_getLast?] at hz
    simp [hz]

theorem compute_statistics_zero_span_witness :
    compute_statistics recorder1 0 = Except.error PyError.zeroDivision :=
  (compute_statistics_zero_span recorder1 0 sampleA [] rfl).mpr rfl

/-- C1 (amended): on a nonempty buffer with nonzero elapsed span,
    `compute_statistics` reports `sampling_rate_hz` equal to
    `sample_count` (not `sample_count - 1`) divided by the elapsed span in
    seconds. -/
theorem compute_statistics_sampling_rate (r : JumpLandingRecorder) (now : ℝ)
    (first : AngleSample) (rest : List AngleSample)
    (hdata : r.recording_data = first :: rest)
    (hspan : (rest.getLastD first).time_elapsed_ms ≠ first.time_elapsed_ms) :
    ∃ st : StatisticsSummary,
      compute_statistics r now = Except.ok (some st) ∧
      st.recording_info.sampling_rate_hz =
        ((r.recording_data.length : ℝ)) /
          ((((rest.getLastD first).time_elapsed_ms - first.time_elapsed_ms : ℤ) : ℝ) / 1000) := by
  rcases r with ⟨data, rstart, rflag⟩
  simp only at hdata
  subst hdata
  simp only [compute_statistics]
  rw [if_neg (fun h => hspan ((span_zero_iff _ _).mp h))]
  refine ⟨_, rfl, ?_⟩
  simp

theorem compute_statistics_sampling_rate_witness :
    ∃ st : StatisticsSummary,
      compute_statistics recorder2 0 = Except.ok (some st) ∧
      st.recording_info.sampling_rate_hz = 2 := by
  obtain ⟨st, h1, h2⟩ :=
    compute_statistics_sampling_rate recorder2 0 sampleA [sampleB] rfl
      (by norm_num [sampleA, sampleB, List.getLastD])
  refine ⟨st, h1, ?_⟩
  rw [h2]
  norm_num [recorder2, sampleA, sampleB, List.getLastD]

/-- C1 (counterexample): on a two-sample buffer spanning one second the
    code reports a sampling rate of 2 Hz, while the claimed formula
    `(sample_count - 1) / span` would give 1 Hz. -/
theorem sampling_rate_formula_counterexample :
    stats_info (compute_statistics recorder2 0) = some ⟨1, 2, 2, 0⟩ ∧
    ¬ ((2 : ℝ) = ((2 : ℝ) - 1) / 1) := by
  constructor
  · norm_num [stats_info, compute_statistics, recorder2, sampleA, sampleB]
  · norm_num

/-- C2 (amended): `compute_statistics` is a pure function of the buffer
    and the wall clock; two calls on the same unchanged buffer agree on
    every output field except `recording_info.recording_timestamp`, which
    copies the current wall-clock reading. -/
theorem compute_statistics_pure_up_to_timestamp (r : JumpLandingRecorder) (t1 t2 : ℝ) :
    strip_timestamp (compute_statistics r t1) = strip_timestamp (compute_statistics r t2) := by
  rcases r with ⟨data, rstart, rflag⟩
  cases data with
  | nil => simp [compute_statistics, strip_timestamp]
  | cons first rest =>
      simp only [compute_statistics]
      by_cases hz : (rest.getLastD first).time_elapsed_ms = first.time_elapsed_ms
      · rw [if_pos ((span_zero_iff _ _).mpr hz), if_pos ((span_zero_iff _ _).mpr hz)]
      · rw [if_neg (fun h => hz ((span_zero_iff _ _).mp h)),
          if_neg (fun h => hz ((span_zero_iff _ _).mp h))]
        simp [strip_timestamp]

/-- C2 (counterexample): two calls of `compute_statistics` on the same
    unchanged two-sample buffer at different wall-clock instants return
    different results (the `recording_timestamp` fields differ). -/
theorem compute_statistics_idempotence_counterexample :
    compute_statistics recorder2 0 ≠ compute_statistics recorder2 1 := by
  intro h
  have h2 := congrArg stats_info h
  norm_num [stats_info, compute_statistics, recorder2, sampleA, sampleB] at h2

/-- The norm of the low-magnitude test sample. -/
theorem vnorm_accSmall : vnorm accSmall = 1 / 20 := by
  simp only [vnorm, accSmall]
  rw [show ((1 : ℝ) / 20) ^ 2 + (0 : ℝ) ^ 2 + (0 : ℝ) ^ 2 = (1 / 20) ^ 2 by norm_num]
  exact Real.sqrt_sq (by norm_num)

/-- C3 (amended): whenever the accelerometer magnitude lies outside the
    [0.8, 1.2] x gravity band, `update_filter` passes the unit-normalized
    vector to the fusion step when the magnitude exceeds 0.1 m/s^2 and the
    zero vector otherwise; in either case the sample is still handed to
    the fusion correction (gating never affects sample admission). -/
theorem update_filter_gate_admission (acc : Vec3)
    (h : ¬ (0.8 < vnorm acc / 9.81 ∧ vnorm acc / 9.81 < 1.2)) :
    acc_for_fusion acc =
      (if 0.1 < vnorm acc then vsmul (1 / vnorm acc) acc else ⟨0, 0, 0⟩) ∧
    ∀ (upd : ℕ → Quat → Vec3 → Vec3 → ℝ → Option Quat) (S : IMUState)
      (imu_id : ℕ) (gyr : Vec3) (dt : ℝ), S.filters imu_id = true →
      update_filter upd S imu_id acc gyr dt =
        (match upd imu_id (S.quaternions imu_id) (vsmul DEG2RAD gyr)
            (acc_for_fusion acc) dt with
         | some q_new =>
             { S with quaternions := Function.update S.quaternions imu_id q_new }
         | none => S) := by
  constructor
  · simp only [acc_for_fusion]
    rw [if_neg h]
  · intro upd S imu_id gyr dt hf
    simp [update_filter, hf]

theorem update_filter_gate_admission_witness :
    acc_for_fusion accSmall = ⟨0, 0, 0⟩ := by
  have hband : ¬ (0.8 < vnorm accSmall / 9.81 ∧ vnorm accSmall / 9.81 < 1.2) := by
    rw [vnorm_accSmall]
    rintro ⟨h1, -⟩
    norm_num at h1
  rw [(update_filter_gate_admission accSmall hband).1, if_neg]
  rw [vnorm_accSmall]
  norm_num

/-- C3 (counterexample): the sample of magnitude 0.05 m/s^2 lies outside
    the [0.8, 1.2] x gravity band, yet `update_filter` passes the zero
    vector to the fusion step rather than the unit-normalized vector. -/
theorem acc_gate_unit_normalize_counterexample :
    ¬ (0.8 < vnorm accSmall / 9.81 ∧ vnorm accSmall / 9.81 < 1.2) ∧
    acc_for_fusion accSmall ≠ vsmul (1 / vnorm accSmall) accSmall := by
  have hband : ¬ (0.8 < vnorm accSmall / 9.81 ∧ vnorm accSmall / 9.81 < 1.2) := by
    rw [vnorm_accSmall]
    rintro ⟨h1, -⟩
    norm_num at h1
  refine ⟨hband, ?_⟩
  have hz : acc_for_fusion accSmall = ⟨0, 0, 0⟩ := by
    simp only [acc_for_fusion]
    rw [if_neg hband, if_neg (by rw [vnorm_accSmall]; norm_num)]
  rw [hz, vnorm_accSmall]
  intro h
  have hx := congrArg Vec3.x h
  simp [vsmul, accSmall] at hx

/-- C4: with both neutral poses stored, `maybe_reanchor_neutral` blends
    each side 98%/2% toward the stored neutral pose and renormalizes
    exactly when decoded |flexion| < 5 and |abduction| < 5 degrees on both
    sides and the aggregate mean gyro norm is < 5 deg/s (all strict), and
    returns both inputs unchanged when any condition fails. -/
theorem maybe_reanchor_neutral_gate (S : IMUState) (ql qr nl nr : Quat)
    (hl : S.neutral_knee_left = some nl) (hr : S.neutral_knee_right = some nr) :
    maybe_reanchor_neutral S ql qr =
      if |(quaternion_to_euler_xyz ql).1 * RAD2DEG| < 5 ∧
         |(quaternion_to_euler_xyz qr).1 * RAD2DEG| < 5 ∧
         |(quaternion_to_euler_xyz ql).2.1 * RAD2DEG| < 5 ∧
         |(quaternion_to_euler_xyz qr).2.1 * RAD2DEG| < 5 ∧
         S.gyr_norm_all < 5 then
        (qnormalize (qadd (qsmul (1 - 0.02) ql) (qsmul 0.02 nl)),
         qnormalize (qadd (qsmul (1 - 0.02) qr) (qsmul 0.02 nr)))
      else (ql, qr) := by
  simp only [maybe_reanchor_neutral, hl, hr]

theorem maybe_reanchor_neutral_gate_witness :
    maybe_reanchor_neutral stateReady qid qid = (qid, qid) := by
  rw [maybe_reanchor_neutral_gate stateReady qid qid qid qid rfl rfl, if_neg]
  rintro ⟨-, -, -, -, h5⟩
  have hg : stateReady.gyr_norm_all = 10 := rfl
  rw [hg] at h5
  norm_num at h5

/-- A sample with matching id makes the id filter nonempty. -/
theorem filter_id_ne_nil {l : List IMUSample} {i : ℕ}
    (h : ∃ s ∈ l, s.id = i) : l.filter (fun s => s.id == i) ≠ [] := by
  obtain ⟨s, hmem, hid⟩ := h
  intro hnil
  have hin : s ∈ l.filter (fun s => s.id == i) :=
    List.mem_filter.mpr ⟨hmem, by simp [hid]⟩
  rw [hnil] at hin
  exact absurd hin (List.not_mem_nil s)

/-- Without a matching id the id filter is empty. -/
theorem filter_id_eq_nil {l : List IMUSample} {i : ℕ}
    (h : ¬ ∃ s ∈ l, s.id = i) : l.filter (fun s => s.id == i) = [] := by
  apply List.eq_nil_iff_forall_not_mem.mpr
  intro s hs
  have hm := List.mem_filter.mp hs
  exact h ⟨s, hm.1, by simpa using hm.2⟩

/-- `calibrate_one` succeeds when both phases contain samples for the id,
    updating only the sensor-to-anatomical map. -/
theorem calibrate_one_ok (eig3 : Mat3 → Vec3 × Mat3)
    (st fl : List IMUSample) (S : IMUState) (i : ℕ)
    (hst : ∃ s ∈ st, s.id = i) (hfl : ∃ s ∈ fl, s.id = i) :
    ∃ S2 : IMUState, calibrate_one eig3 st fl S i = Except.ok S2 ∧
      S2.calibrated = S.calibrated := by
  have h1 : ((st.filter (fun s => s.id == i)).map (·.acc)).isEmpty = false := by
    simp [List.isEmpty_iff, filter_id_ne_nil hst]
  have h2 : ((fl.filter (fun s => s.id == i)).map (·.gyr)).isEmpty = false := by
    simp [List.isEmpty_iff, filter_id_ne_nil hfl]
  cases hG : compute_gravity_axis st i with
  | error e =>
      exfalso
      simp [compute_gravity_axis, h1] at hG
  | ok g =>
      cases hF : compute_flexion_axis eig3 fl i with
      | error e =>
          exfalso
          simp [compute_flexion_axis, h2] at hF
      | ok f =>
          refine ⟨{ S with q_sensor_to_anat := (Function.update S.q_sensor_to_anat i
              (rotm_to_quat (build_anatomical_frame (vneg g) f))) }, ?_, rfl⟩
          simp only [calibrate_one, hG, hF]

/-- `calibrate_one` raises when the static phase has no samples for the id. -/
theorem calibrate_one_error_static (eig3 : Mat3 → Vec3 × Mat3)
    (st fl : List IMUSample) (S : IMUState) (i : ℕ)
    (hst : ¬ ∃ s ∈ st, s.id = i) :
    calibrate_one eig3 st fl S i =
      Except.error ("No static samples for IMU " ++ toString i) := by
  have h1 : ((st.filter (fun s => s.id == i)).map (·.acc)).isEmpty = true := by
    simp [List.isEmpty_iff, filter_id_eq_nil hst]
  have hG : compute_gravity_axis st i =
      Except.error ("No static samples for IMU " ++ toString i) := by
    simp [compute_gravity_axis, h1]
  simp only [calibrate_one, hG]

/-- `calibrate_one` raises when the flexion phase has no samples for the id. -/
theorem calibrate_one_error_flexion (eig3 : Mat3 → Vec3 × Mat3)
    (st fl : List IMUSample) (S : IMUState) (i : ℕ)
    (hst : ∃ s ∈ st, s.id = i) (hfl : ¬ ∃ s ∈ fl, s.id = i) :
    calibrate_one eig3 st fl S i =
      Except.error ("No flexion samples for IMU " ++ toString i) := by
  have h1 : ((st.filter (fun s => s.id == i)).map (·.acc)).isEmpty = false := by
    simp [List.isEmpty_iff, filter_id_ne_nil hst]
  have h2 : ((fl.filter (fun s => s.id == i)).map (·.gyr)).isEmpty = true := by
    simp [List.isEmpty_iff, filter_id_eq_nil hfl]
  have hF : compute_flexion_axis eig3 fl i =
      Except.error ("No flexion samples for IMU " ++ toString i) := by
    simp [compute_flexion_axis, h2]
  cases hG : compute_gravity_axis st i with
  | error e =>
      exfalso
      simp [compute_gravity_axis, h1] at hG
  | ok g =>
      simp only [calibrate_one, hG, hF]

/-- The calibration loop succeeds exactly when every listed id has samples
    in both phases, and it never touches the calibrated flag. -/
theorem calibrate_imus_spec (eig3 : Mat3 → Vec3 × Mat3)
    (st fl : List IMUSample) (ids : List ℕ) (S : IMUState) :
    ((calibrate_imus eig3 st fl ids S).2 = none ↔
      ∀ i ∈ ids, (∃ s ∈ st, s.id = i) ∧ (∃ s ∈ fl, s.id = i)) ∧
    (calibrate_imus eig3 st fl ids S).1.calibrated = S.calibrated := by
  induction ids generalizing S with
  | nil => simp [calibrate_imus]
  | cons i rest ih =>
      by_cases hst : ∃ s ∈ st, s.id = i
      · by_cases hfl : ∃ s ∈ fl, s.id = i
        · obtain ⟨S2, hS2, hcal⟩ := calibrate_one_ok eig3 st fl S i hst hfl
          have hstep : calibrate_imus eig3 st fl (i :: rest) S =
              calibrate_imus eig3 st fl rest S2 := by
            simp [calibrate_imus, hS2]
          constructor
          · rw [hstep, (ih S2).1]
            simp [hst, hfl]
          · rw [hstep, (ih S2).2, hcal]
        · have he := calibrate_one_error_flexion eig3 st fl S i hst hfl
          constructor
          · simp [calibrate_imus, he, hfl]
          · simp [calibrate_imus, he]
      · have he := calibrate_one_error_static eig3 st fl S i hst
        constructor
        · simp [calibrate_imus, he, hst]
        · simp [calibrate_imus, he]

/-- C5: `run_anatomical_calibration` iterates exactly the fixed id set
    {0,1,2,3}: it succeeds exactly when both phases contain at least one
    sample for each of these ids; when some id lacks samples it raises a
    calibration error and the calibrated flag (false beforehand) is not
    set to true; on success the flag becomes true. -/
theorem run_anatomical_calibration_requires_all_ids (eig3 : Mat3 → Vec3 × Mat3)
    (st fl : List IMUSample) (S : IMUState) (hcal : S.calibrated = false) :
    ((run_anatomical_calibration eig3 st fl S).2 = none ↔
      ∀ i ∈ MODE_1_IMUS, (∃ s ∈ st, s.id = i) ∧ (∃ s ∈ fl, s.id = i)) ∧
    ((run_anatomical_calibration eig3 st fl S).2 ≠ none →
      (run_anatomical_calibration eig3 st fl S).1.calibrated = false) ∧
    ((run_anatomical_calibration eig3 st fl S).2 = none →
      (run_anatomical_calibration eig3 st fl S).1.calibrated = true) := by
  obtain ⟨hiff, hflag⟩ := calibrate_imus_spec eig3 st fl MODE_1_IMUS S
  rcases hloop : calibrate_imus eig3 st fl MODE_1_IMUS S with ⟨S2, err⟩
  rw [hloop] at hiff hflag
  cases err with
  | none =>
      constructor
      · simpa [run_anatomical_calibration, hloop] using hiff
      · constructor
        · intro hne
          simp [run_anatomical_calibration, hloop] at hne
        · intro _
          simp [run_anatomical_calibration, hloop, capture_neutral_knees]
  | some e =>
      constructor
      · simpa [run_anatomical_calibration, hloop] using hiff
      · constructor
        · intro _
          simp only [run_anatomical_calibration, hloop]
          rw [← hcal]
          exact hflag
        · intro hne
          simp [run_anatomical_calibration, hloop] at hne

theorem run_anatomical_calibration_requires_all_ids_witness :
    (run_anatomical_calibration eigTrivial [] [] initState).2 ≠ none ∧
    (run_anatomical_calibration eigTrivial [] [] initState).1.calibrated = false := by
  obtain ⟨hiff, hmiss, -⟩ :=
    run_anatomical_calibration_requires_all_ids eigTrivial [] [] initState rfl
  have hne : (run_anatomical_calibration eigTrivial [] [] initState).2 ≠ none := by
    intro hnone
    have := hiff.mp hnone 0 (by simp [ MODE_1_IMUS])
    simp at this
  exact ⟨hne, hmiss hne⟩

/-- A quaternion norm-square is a sum of squares, hence nonnegative. -/
theorem qnormSq_nonneg (q : Quat) : 0 ≤ qnormSq q := by
  simp only [qnormSq]
  positivity

/-- Conjugation preserves the norm-square. -/
theorem qnormSq_conjugate (q : Quat) :
    qnormSq (quaternion_conjugate q) = qnormSq q := by
  simp only [qnormSq, quaternion_conjugate]
  ring

/-- The norm-square is multiplicative over the Hamilton product. -/
theorem qnormSq_mul (q r : Quat) :
    qnormSq (quaternion_multiply q r) = qnormSq q * qnormSq r := by
  simp only [qnormSq, quaternion_multiply]
  ring

/-- Dividing a quaternion of nonzero norm by its norm yields a unit
    quaternion. -/
theorem qnormSq_qnormalize (q : Quat) (h : qnormSq q ≠ 0) :
    qnormSq (qnormalize q) = 1 := by
  have h0 : 0 ≤ qnormSq q := qnormSq_nonneg q
  have expand : qnormSq (qnormalize q) =
      (1 / Real.sqrt (qnormSq q)) ^ 2 * qnormSq q := by
    simp only [qnormalize, qnorm, qsmul, qnormSq]
    ring
  rw [expand, div_pow, one_pow, Real.sq_sqrt h0, one_div, inv_mul_cancel₀ h]

/-- The conjugate-product identity: `conj q * q = (|q|^2, 0, 0, 0)`. -/
theorem conj_mul_self (q : Quat) :
    quaternion_multiply (quaternion_conjugate q) q = ⟨qnormSq q, 0, 0, 0⟩ := by
  simp only [quaternion_multiply, quaternion_conjugate, qnormSq, Quat.mk.injEq]
  refine ⟨by ring, by ring, by ring, by ring⟩

/-- The clip of 0 to [-1, 1] is 0. -/
theorem clip01 : min (1 : ℝ) (max (-1) 0) = 0 := by
  rw [max_eq_right (by norm_num : (-1 : ℝ) ≤ 0), min_eq_right (by norm_num : (0 : ℝ) ≤ 1)]

/-- Euler decomposition of the identity quaternion is zero. -/
theorem euler_qid : quaternion_to_euler_xyz qid = (0, 0, 0) := by
  have h1 : arctan2 0 1 = 0 := by
    simp only [arctan2]
    rw [if_pos (by norm_num : (0 : ℝ) < 1)]
    norm_num [Real.arctan_zero]
  simp only [quaternion_to_euler_xyz, qid]
  norm_num [h1, clip01, Real.arcsin_zero]

/-- The dead-zone is an odd function. -/
theorem deadzone_neg (x th : ℝ) : _deadzone (-x) th = -(_deadzone x th) := by
  simp only [_deadzone, abs_neg]
  by_cases h : |x| < th
  · simp [h]
  · simp [h]

/-- In the READY state `compute_knee_angles` emits the dead-zoned Euler
    angles of the reanchored working quaternions, with the right-flexion
    sign flipped. -/
theorem compute_knee_angles_ready (S : IMUState) (nl nr : Quat)
    (hc : S.calibrated = true) (hl : S.neutral_knee_left = some nl)
    (hr : S.neutral_knee_right = some nr) :
    compute_knee_angles S = some
      ⟨_deadzone ((quaternion_to_euler_xyz (knee_reanchored S nl nr).1).1 * RAD2DEG) 1,
       -(_deadzone ((quaternion_to_euler_xyz (knee_reanchored S nl nr).2).1 * RAD2DEG) 1),
       _deadzone ((quaternion_to_euler_xyz (knee_reanchored S nl nr).1).2.1 * RAD2DEG) 1,
       _deadzone ((quaternion_to_euler_xyz (knee_reanchored S nl nr).2).2.1 * RAD2DEG) 1⟩ := by
  simp [compute_knee_angles, hc, hl, hr]

/-- C8: in `compute_knee_angles` each of the four channels is emitted
    through the symmetric 1-degree dead-zone applied to the decoded value
    (prior to the right-flexion sign flip): decoded values of magnitude
    strictly below 1 degree become exactly 0, larger ones pass unchanged. -/
theorem compute_knee_angles_deadzone (S : IMUState) (nl nr : Quat)
    (hc : S.calibrated = true) (hl : S.neutral_knee_left = some nl)
    (hr : S.neutral_knee_right = some nr) :
    (∀ x : ℝ, |x| < 1 → _deadzone x 1 = 0) ∧
    (∀ x : ℝ, 1 ≤ |x| → _deadzone x 1 = x) ∧
    compute_knee_angles S = some
      ⟨_deadzone ((quaternion_to_euler_xyz (knee_reanchored S nl nr).1).1 * RAD2DEG) 1,
       -(_deadzone ((quaternion_to_euler_xyz (knee_reanchored S nl nr).2).1 * RAD2DEG) 1),
       _deadzone ((quaternion_to_euler_xyz (knee_reanchored S nl nr).1).2.1 * RAD2DEG) 1,
       _deadzone ((quaternion_to_euler_xyz (knee_reanchored S nl nr).2).2.1 * RAD2DEG) 1⟩ := by
  refine ⟨?_, ?_, compute_knee_angles_ready S nl nr hc hl hr⟩
  · intro x hx
    simp only [_deadzone]
    rw [if_pos hx]
  · intro x hx
    simp only [_deadzone]
    rw [if_neg (not_lt.mpr hx)]

theorem compute_knee_angles_deadzone_witness :
    _deadzone (1 / 2 : ℝ) 1 = 0 ∧ _deadzone (3 : ℝ) 1 = 3 := by
  obtain ⟨h1, h2, -⟩ := compute_knee_angles_deadzone stateReady qid qid rfl rfl rfl
  constructor
  · apply h1
    rw [abs_of_pos (by norm_num : (0 : ℝ) < 1 / 2)]
    norm_num
  · apply h2
    rw [abs_of_pos (by norm_num : (0 : ℝ) < 3)]
    norm_num

/-- C9: in the READY state, right flexion is emitted as the negation of
    the dead-zoned decoded right roll while the other three channels keep
    the sign of their decoded values; consequently, on antisymmetric
    inputs (decoded right roll equal to minus the decoded left roll) the
    emitted right flexion equals the emitted left flexion. -/
theorem compute_knee_angles_sign_convention (S : IMUState) (nl nr : Quat)
    (hc : S.calibrated = true) (hl : S.neutral_knee_left = some nl)
    (hr : S.neutral_knee_right = some nr) :
    compute_knee_angles S = some
      ⟨_deadzone ((quaternion_to_euler_xyz (knee_reanchored S nl nr).1).1 * RAD2DEG) 1,
       -(_deadzone ((quaternion_to_euler_xyz (knee_reanchored S nl nr).2).1 * RAD2DEG) 1),
       _deadzone ((quaternion_to_euler_xyz (knee_reanchored S nl nr).1).2.1 * RAD2DEG) 1,
       _deadzone ((quaternion_to_euler_xyz (knee_reanchored S nl nr).2).2.1 * RAD2DEG) 1⟩ ∧
    ((quaternion_to_euler_xyz (knee_reanchored S nl nr).2).1 =
        -((quaternion_to_euler_xyz (knee_reanchored S nl nr).1).1) →
      -(_deadzone ((quaternion_to_euler_xyz (knee_reanchored S nl nr).2).1 * RAD2DEG) 1) =
        _deadzone ((quaternion_to_euler_xyz (knee_reanchored S nl nr).1).1 * RAD2DEG) 1) := by
  refine ⟨compute_knee_angles_ready S nl nr hc hl hr, ?_⟩
  intro hanti
  rw [hanti, show -((quaternion_to_euler_xyz (knee_reanchored S nl nr).1).1) * RAD2DEG =
      -(((quaternion_to_euler_xyz (knee_reanchored S nl nr).1).1) * RAD2DEG) by ring,
    deadzone_neg, neg_neg]

/-- The left relative quaternion of the resting identity state. -/
theorem knee_rel_left_stateReady : knee_rel_left stateReady = qid := by
  norm_num [knee_rel_left, compute_relative_quaternion, get_segment_orientation_anat,
    stateReady, quaternion_multiply, quaternion_conjugate, qnormalize, qnorm, qnormSq,
    qsmul, qid, Real.sqrt_one]

/-- The right relative quaternion of the resting identity state. -/
theorem knee_rel_right_stateReady : knee_rel_right stateReady = qid := by
  norm_num [knee_rel_right, compute_relative_quaternion, get_segment_orientation_anat,
    stateReady, quaternion_multiply, quaternion_conjugate, qnormalize, qnorm, qnormSq,
    qsmul, qid, Real.sqrt_one]

/-- With the reanchor gate off (gyro norm 10), the working quaternions of
    the resting identity state pass through unchanged. -/
theorem knee_reanchored_stateReady : knee_reanchored stateReady qid qid = (qid, qid) := by
  simp only [knee_reanchored, knee_rel_left_stateReady, knee_rel_right_stateReady]
  rw [show quaternion_multiply (quaternion_conjugate qid) qid = qid by
    norm_num [quaternion_multiply, quaternion_conjugate, qid]]
  simp only [maybe_reanchor_neutral, show stateReady.neutral_knee_left = some qid from rfl,
    show stateReady.neutral_knee_right = some qid from rfl]
  rw [if_neg (fun hcond => absurd hcond.2.2.2.2
    (by norm_num [stateReady] : ¬ stateReady.gyr_norm_all < 5))]

theorem compute_knee_angles_sign_convention_witness :
    compute_knee_angles stateReady = some ⟨0, 0, 0, 0⟩ := by
  obtain ⟨hmain, -⟩ := compute_knee_angles_sign_convention stateReady qid qid rfl rfl rfl
  rw [hmain, knee_reanchored_stateReady]
  simp [euler_qid, _deadzone]

/-- C7 (amended): immediately after `capture_neutral_knees`, recomputing
    angles on the same (unit-normalizable) orientation inputs yields
    exactly 0.0 on all four channels provided the reanchoring blend gate
    is off (aggregate mean gyro norm at least 5 deg/s); the
    baseline-removed relative quaternion is then the identity, its Euler
    decomposition is zero and the dead-zone emits exactly 0.0. -/
theorem knee_angles_zero_after_capture (S : IMUState)
    (hc : S.calibrated = true)
    (h0 : qnormSq (quaternion_multiply (S.quaternions 0) (S.q_sensor_to_anat 0)) ≠ 0)
    (h1 : qnormSq (quaternion_multiply (S.quaternions 1) (S.q_sensor_to_anat 1)) ≠ 0)
    (h2 : qnormSq (quaternion_multiply (S.quaternions 2) (S.q_sensor_to_anat 2)) ≠ 0)
    (h3 : qnormSq (quaternion_multiply (S.quaternions 3) (S.q_sensor_to_anat 3)) ≠ 0)
    (hg : 5 ≤ S.gyr_norm_all) :
    compute_knee_angles (capture_neutral_knees S) = some ⟨0, 0, 0, 0⟩ := by
  have huL : qnormSq (knee_rel_left S) = 1 := by
    simp only [knee_rel_left, compute_relative_quaternion, get_segment_orientation_anat]
    rw [qnormSq_mul, qnormSq_conjugate, qnormSq_qnormalize _ h2, qnormSq_qnormalize _ h0]
    norm_num
  have huR : qnormSq (knee_rel_right S) = 1 := by
    simp only [knee_rel_right, compute_relative_quaternion, get_segment_orientation_anat]
    rw [qnormSq_mul, qnormSq_conjugate, qnormSq_qnormalize _ h3, qnormSq_qnormalize _ h1]
    norm_num
  have hqL : quaternion_multiply (quaternion_conjugate (knee_rel_left S))
      (knee_rel_left S) = qid := by
    rw [conj_mul_self, huL]
    rfl
  have hqR : quaternion_multiply (quaternion_conjugate (knee_rel_right S))
      (knee_rel_right S) = qid := by
    rw [conj_mul_self, huR]
    rfl
  have hkr : knee_reanchored (capture_neutral_knees S) (knee_rel_left S)
      (knee_rel_right S) = (qid, qid) := by
    simp only [knee_reanchored,
      show knee_rel_left (capture_neutral_knees S) = knee_rel_left S from rfl,
      show knee_rel_right (capture_neutral_knees S) = knee_rel_right S from rfl,
      hqL, hqR]
    simp only [maybe_reanchor_neutral,
      show (capture_neutral_knees S).neutral_knee_left = some (knee_rel_left S) from rfl,
      show (capture_neutral_knees S).neutral_knee_right = some (knee_rel_right S) from rfl]
    rw [if_neg (fun hcond => absurd hcond.2.2.2.2 (not_lt.mpr hg))]
  rw [compute_knee_angles_ready (capture_neutral_knees S) (knee_rel_left S)
    (knee_rel_right S) hc rfl rfl, hkr]
  simp [euler_qid, _deadzone]

theorem knee_angles_zero_after_capture_witness :
    compute_knee_angles (capture_neutral_knees stateStill5) = some ⟨0, 0, 0, 0⟩ := by
  refine knee_angles_zero_after_capture stateStill5 rfl ?_ ?_ ?_ ?_ ?_
  all_goals norm_num [stateStill5, quaternion_multiply, qid, qnormSq]

/-- Pitch decode of a quaternion supported on the w and y components. -/
theorem euler_pitch_wy (w y : ℝ) :
    (quaternion_to_euler_xyz ⟨w, 0, y, 0⟩).2.1 =
      Real.arcsin (min 1 (max (-1) (2 * (w * y)))) := by
  simp [quaternion_to_euler_xyz]

/-- Pitch of the normalized 98%/2% blend of the identity toward a
    180-degree rotation about y. -/
theorem pitch_blend :
    (quaternion_to_euler_xyz (qnormalize ⟨49 / 50, 0, 1 / 50, 0⟩)).2.1 =
      Real.arcsin (49 / 1201) := by
  have hnn : (0 : ℝ) ≤ 1201 / 1250 := by norm_num
  have hsq : Real.sqrt ((1201 : ℝ) / 1250) ^ 2 = 1201 / 1250 := Real.sq_sqrt hnn
  have hnorm : qnormalize (⟨49 / 50, 0, 1 / 50, 0⟩ : Quat) =
      ⟨1 / Real.sqrt (1201 / 1250) * (49 / 50), 0,
       1 / Real.sqrt (1201 / 1250) * (1 / 50), 0⟩ := by
    simp only [qnormalize, qnorm, qnormSq, qsmul]
    norm_num
  rw [hnorm, euler_pitch_wy]
  have key : 2 * (1 / Real.sqrt ((1201 : ℝ) / 1250) * (49 / 50) *
      (1 / Real.sqrt ((1201 : ℝ) / 1250) * (1 / 50))) = 49 / 1201 := by
    have hp2 : (1 / Real.sqrt ((1201 : ℝ) / 1250)) ^ 2 = 1250 / 1201 := by
      rw [div_pow, one_pow, hsq]
      norm_num
    calc 2 * (1 / Real.sqrt ((1201 : ℝ) / 1250) * (49 / 50) *
        (1 / Real.sqrt ((1201 : ℝ) / 1250) * (1 / 50)))
        = 2 * ((49 / 50) * (1 / 50)) * (1 / Real.sqrt ((1201 : ℝ) / 1250)) ^ 2 := by ring
      _ = 2 * ((49 / 50) * (1 / 50)) * (1250 / 1201) := by rw [hp2]
      _ = 49 / 1201 := by norm_num
  rw [key, max_eq_right (by norm_num : (-1 : ℝ) ≤ 49 / 1201),
    min_eq_right (by norm_num : (49 : ℝ) / 1201 ≤ 1)]

/-- C7 (counterexample): for the calibrated state whose left-shank
    anatomical quaternion is a 180-degree rotation about y and whose
    aggregate gyro norm is 0, recomputing angles immediately after
    neutral capture does NOT yield all zeros: the 2% reanchor blend pulls
    the identity toward the stored neutral pose, and the resulting left
    abduction (about 2.34 degrees) clears the 1-degree dead-zone. -/
theorem knee_angles_after_capture_counterexample :
    compute_knee_angles (capture_neutral_knees stateSkewLeft) ≠ some ⟨0, 0, 0, 0⟩ := by
  have relL : knee_rel_left stateSkewLeft = ⟨0, 0, 1, 0⟩ := by
    norm_num [knee_rel_left, compute_relative_quaternion, get_segment_orientation_anat,
      stateSkewLeft, quaternion_multiply, quaternion_conjugate, qnormalize, qnorm,
      qnormSq, qsmul, qid, Real.sqrt_one]
  have relR : knee_rel_right stateSkewLeft = qid := by
    norm_num [knee_rel_right, compute_relative_quaternion, get_segment_orientation_anat,
      stateSkewLeft, quaternion_multiply, quaternion_conjugate, qnormalize, qnorm,
      qnormSq, qsmul, qid, Real.sqrt_one]
  have hTl : (capture_neutral_knees stateSkewLeft).neutral_knee_left =
      some (⟨0, 0, 1, 0⟩ : Quat) := by
    simp only [capture_neutral_knees]
    rw [relL]
  have hTr : (capture_neutral_knees stateSkewLeft).neutral_knee_right = some qid := by
    simp only [capture_neutral_knees]
    rw [relR]
  have hbl : quaternion_multiply (quaternion_conjugate ⟨0, 0, 1, 0⟩)
      (knee_rel_left (capture_neutral_knees stateSkewLeft)) = qid := by
    rw [show knee_rel_left (capture_neutral_knees stateSkewLeft) =
      knee_rel_left stateSkewLeft from rfl, relL]
    norm_num [quaternion_multiply, quaternion_conjugate, qid]
  have hbr : quaternion_multiply (quaternion_conjugate qid)
      (knee_rel_right (capture_neutral_knees stateSkewLeft)) = qid := by
    rw [show knee_rel_right (capture_neutral_knees stateSkewLeft) =
      knee_rel_right stateSkewLeft from rfl, relR]
    norm_num [quaternion_multiply, quaternion_conjugate, qid]
  have hkr : knee_reanchored (capture_neutral_knees stateSkewLeft) ⟨0, 0, 1, 0⟩ qid =
      (qnormalize ⟨49 / 50, 0, 1 / 50, 0⟩, qnormalize ⟨1, 0, 0, 0⟩) := by
    simp only [knee_reanchored, hbl, hbr]
    simp only [maybe_reanchor_neutral, hTl, hTr]
    rw [if_pos]
    · norm_num [qadd, qsmul, qid]
    · refine ⟨?_, ?_, ?_, ?_, ?_⟩
      · norm_num [euler_qid]
      · norm_num [euler_qid]
      · norm_num [euler_qid]
      · norm_num [euler_qid]
      · rw [show (capture_neutral_knees stateSkewLeft).gyr_norm_all = 0 from rfl]
        norm_num
  have harc : (49 : ℝ) / 1201 < Real.arcsin (49 / 1201) := by
    have harcpos : 0 < Real.arcsin ((49 : ℝ) / 1201) :=
      Real.arcsin_pos.mpr (by norm_num)
    have hsin : Real.sin (Real.arcsin ((49 : ℝ) / 1201)) = 49 / 1201 :=
      Real.sin_arcsin (by norm_num) (by norm_num)
    have hlt := Real.sin_lt harcpos
    rw [hsin] at hlt
    exact hlt
  have hv : 1 < Real.arcsin ((49 : ℝ) / 1201) * RAD2DEG := by
    show 1 < Real.arcsin ((49 : ℝ) / 1201) * (180 / Real.pi)
    have hppos : (0 : ℝ) < 180 / Real.pi := by positivity
    have hstep1 : (49 : ℝ) / 1201 * (180 / Real.pi) <
        Real.arcsin ((49 : ℝ) / 1201) * (180 / Real.pi) :=
      mul_lt_mul_of_pos_right harc hppos
    have hstep2 : (180 : ℝ) / 3.15 < 180 / Real.pi :=
      div_lt_div_of_pos_left (by norm_num) Real.pi_pos Real.pi_lt_d2
    have hstep3 : (1 : ℝ) < 49 / 1201 * (180 / 3.15) := by norm_num
    have hstep4 : (49 : ℝ) / 1201 * (180 / 3.15) < 49 / 1201 * (180 / Real.pi) :=
      mul_lt_mul_of_pos_left hstep2 (by norm_num)
    linarith
  intro heq
  rw [compute_knee_angles_ready (capture_neutral_knees stateSkewLeft) ⟨0, 0, 1, 0⟩ qid
    rfl hTl hTr, hkr] at heq
  have hinj := Option.some.inj heq
  simp only [KneeAngles.mk.injEq] at hinj
  obtain ⟨-, -, habd, -⟩ := hinj
  rw [pitch_blend] at habd
  have hnlt : ¬ (|Real.arcsin ((49 : ℝ) / 1201) * RAD2DEG| < 1) := by
    rw [abs_of_pos (lt_trans zero_lt_one hv)]
    exact not_lt.mpr (le_of_lt hv)
  simp only [_deadzone] at habd
  rw [if_neg hnlt] at habd
  linarith [hv, habd]

end
